import Mathlib

/-!
Shallow embedding of the harmony-microservice hub bridge (src/index.js).

JavaScript objects used as string-keyed dictionaries are modelled as
association lists (`Obj`) whose insert (`objSet`) overwrites an existing
key in place and otherwise appends, matching JS property assignment and
`Object.keys` insertion order for string keys.  Hub-API calls that can
throw are modelled by `Option`-valued inputs to the functions that await
them (`none` = the awaited call threw / the promise rejected).

Assignments `this.state = {...}` go through the HostBase `state` setter
(external collaborator `microservice-core/HostBase`), which merges the
given fields into the existing state object and publishes; the spec
describes this as in-place field merging of LiveState.  Accordingly each
state assignment is embedded as a record update of exactly the fields
listed in the corresponding object literal.
-/

/-- JS object used as a string-keyed map: association list, first key wins
on lookup, insert overwrites in place. -/
abbrev Obj (α : Type) := List (String × α)

def objGet {α : Type} (o : Obj α) (k : String) : Option α :=
  (o.find? (fun p => p.1 = k)).map (fun p => p.2)

def objSet {α : Type} (o : Obj α) (k : String) (v : α) : Obj α :=
  if (o.find? (fun p => p.1 = k)).isSome then
    o.map (fun p => if p.1 = k then (k, v) else p)
  else
    o ++ [(k, v)]

/-- One `function` entry of a control group: `{name, label, action}` with
the raw (unescaped) action token from the hub catalog. -/
structure Func where
  name : String
  label : String
  action : String
deriving DecidableEq

/-- One control group: `{function: [...]}`. -/
structure FuncGroup where
  function : List Func
deriving DecidableEq

abbrev ControlGroup := List FuncGroup

/-- An activity descriptor as stored in the activities map. -/
structure Activity where
  id : String
  label : String
  controlGroup : ControlGroup
deriving DecidableEq

def isAlnum (c : Char) : Bool := c.isAlpha || c.isDigit

/-- Collapse runs of hyphens to a single hyphen. -/
def collapseDashes : List Char → List Char
  | [] => []
  | [c] => [c]
  | c :: d :: rest =>
    if c = '-' && d = '-' then collapseDashes (d :: rest)
    else c :: collapseDashes (d :: rest)

/-- The `parameterize` npm package applied to a label: lowercase,
non-alphanumerics become hyphens, runs collapsed, leading/trailing
hyphens trimmed. -/
def parameterize (s : String) : String :=
  let mapped := s.toList.map (fun c => if isAlnum c then c.toLower else '-')
  String.mk ((((collapseDashes mapped).dropWhile (fun c => c = '-')).reverse.dropWhile
    (fun c => c = '-')).reverse)

/-- `str.replace(/:/g, '::')` on the character list. -/
def escapeColonsList : List Char → List Char
  | [] => []
  | c :: rest =>
    if c = ':' then ':' :: ':' :: escapeColonsList rest
    else c :: escapeColonsList rest

/-- `action.replace(/:/g, '::')`: every colon of the raw action doubled. -/
def escapeColons (s : String) : String := String.mk (escapeColonsList s.toList)

/-- A colon is "escaped" when it is immediately paired with a second colon;
the list has no unescaped colon when every colon pairs up with the one
right after it. -/
def noUnescapedColon : List Char → Bool
  | [] => true
  | [c] => !(c = ':')
  | c :: d :: rest =>
    if c = ':' then
      if d = ':' then noUnescapedColon rest else false
    else noUnescapedColon (d :: rest)

/-- Entry of a device's slug-keyed command map as built by
`getCommandsFromControlGroup`: `{name, slug, label}` plus the
(non-enumerable, still readable) escaped `action`. -/
structure CmdEntry where
  name : String
  slug : String
  label : String
  action : String
deriving DecidableEq

/-- `getCommandsFromControlGroup(controlGroup)` (src/index.js:29-45).
The JS `.some` callbacks return `undefined`, so iteration never stops
early and behaves as `forEach` over every group and function.  Each
function is stored under the slug of its label, with its action escaped;
a later entry with the same slug overwrites the earlier one. -/
def getCommandsFromControlGroup (cg : ControlGroup) : Obj CmdEntry :=
  cg.foldl
    (fun acc g =>
      g.function.foldl
        (fun acc2 f =>
          let slug := parameterize f.label
          objSet acc2 slug ⟨f.name, slug, f.label, escapeColons f.action⟩)
        acc)
    []

/-- Raw device record from the hub catalog (`commands.device` element). -/
structure RawDevice where
  id : String
  label : String
  controlGroup : ControlGroup
deriving DecidableEq

/-- Device record after `getDevices` decorates it with `slug` and
`commands`. -/
structure Device where
  id : String
  label : String
  slug : String
  commands : Obj CmdEntry
deriving DecidableEq

def buildDevice (d : RawDevice) : Device :=
  { id := d.id
    label := d.label
    slug := parameterize d.label
    commands := getCommandsFromControlGroup d.controlGroup }

/-- `getDevices` (src/index.js:261-280): builds the id-keyed `devices`
map and the slug-keyed `deviceSlugs` map from the raw catalog. -/
def getDevices (raw : List RawDevice) : Obj Device × Obj Device :=
  raw.foldl
    (fun acc d =>
      let dd := buildDevice d
      (objSet acc.1 dd.id dd, objSet acc.2 dd.slug dd))
    ([], [])

/-- The live state of one hub instance (`this.state`), restricted to the
fields the poll loop, command dispatch and activity dispatch read or
write.  `none` models a JS `undefined`/`null` field. -/
structure LiveState where
  startingActivity : Option String := none
  currentActivity : Option String := none
  isOff : Option Bool := none
  commands : Option (Obj Func) := none
  activities : Obj Activity := []
deriving DecidableEq

/-- Flatten every control group of an activity into the name-keyed map of
raw function entries (`commands[func.name] = func`). -/
def flattenControlGroup (cg : ControlGroup) : Obj Func :=
  cg.foldl
    (fun acc g => g.function.foldl (fun acc2 f => objSet acc2 f.name f) acc)
    []

/-- `getCommands()` (src/index.js:123-134): reads
`this.state.activities[this.state.currentActivity].controlGroup` and
flattens it name-keyed.  `none` models the TypeError thrown when the
current activity is absent from the activities map (reading
`.controlGroup` of `undefined`). -/
def getCommands (s : LiveState) : Option (Obj Func) :=
  match s.currentActivity with
  | none => none
  | some a =>
    match objGet s.activities a with
    | none => none
    | some act => some (flattenControlGroup act.controlGroup)

/-- One iteration of the `poll()` loop body (src/index.js:193-225).
`cur` is the result of `await this.getCurrentActivity()` and `off` the
result of `await this.harmonyClient.isOff()`; `none` means the awaited
call threw.  Every exception is caught by the loop's `catch`, so the
iteration always yields a state and the loop proceeds to the next tick:
* if `getCurrentActivity` throws, nothing was assigned — state unchanged;
* if `isOff` throws, the object literal for the first state assignment
  failed to evaluate — state unchanged;
* otherwise `isOff`, `currentActivity` and `startingActivity` are merged
  in, and when the polled activity differs from the recorded one,
  `getCommands()` is attempted: on success `commands` is merged in, and
  the TypeError it may throw is caught after the first merge already
  happened. -/
def pollTick (s : LiveState) (cur : Option String) (off : Option Bool) :
    LiveState :=
  match cur with
  | none => s
  | some a =>
    let startingActivity := s.startingActivity
    let newActivity : Bool := decide (s.currentActivity ≠ some a)
    let newStartingActivity :=
      if startingActivity = some a then none else startingActivity
    match off with
    | none => s
    | some b =>
      let s1 : LiveState :=
        { s with isOff := some b
                 currentActivity := some a
                 startingActivity := newStartingActivity }
      if newActivity then
        match getCommands s1 with
        | none => s1
        | some cmds => { s1 with commands := some cmds }
      else s1

/-- The poll loop over a finite trace of hub responses: `while (true)`
with every tick's exceptions caught, so the loop always continues with
the next pair of awaited results. -/
def pollRun (s : LiveState) : List (Option String × Option Bool) → LiveState
  | [] => s
  | (c, o) :: rest => pollRun (pollTick s c o) rest

/-- `findActivity(activity)` (src/index.js:136-158): `this.activities`
may still be `undefined` (`none`); a payload that is a key of the
activities map resolves to itself (`activities[activity] ||
activities[String(activity)]` — identical lookups for a string payload);
otherwise the first activity whose `label` equals the payload resolves
to its key; otherwise `null`. -/
def findActivity (activities : Option (Obj Activity)) (payload : String) :
    Option String :=
  match activities with
  | none => none
  | some acts =>
    if (objGet acts payload).isSome then some payload
    else
      match acts.find? (fun p => p.2.label = payload) with
      | some p => some p.1
      | none => none

/-- Result of a JS promise as observed by an awaiting caller. -/
inductive PromiseResult (α : Type) where
  | fulfilled (v : α)
  | rejected
deriving DecidableEq

/-- `startActivity(activity)` (src/index.js:168-189).  Returns the final
state, the list of `startActivity` RPCs issued to the hub, and the
promise outcome.  An unresolvable payload (and the falsy `''`, since the
guard is `if (!activity) return`) short-circuits before any state write
or RPC.  Otherwise `startingActivity` is set and published, the RPC
issued (`rpcOk = false` models its rejection, which propagates and
leaves `startingActivity` set), and on success `startingActivity` is
cleared. -/
def startActivityOp (activities : Option (Obj Activity)) (s : LiveState)
    (payload : String) (rpcOk : Bool) :
    LiveState × List String × PromiseResult Unit :=
  match findActivity activities payload with
  | none => (s, [], .fulfilled ())
  | some a =>
    if a = "" then (s, [], .fulfilled ())
    else
      let s1 : LiveState := { s with startingActivity := some a }
      if rpcOk then ({ s1 with startingActivity := none }, [a], .fulfilled ())
      else (s1, [a], .rejected)

/-- The two `holdAction` payloads sent for one resolved action token:
press then release, in order. -/
def holdActionPayloads (action : String) : List String :=
  ["action=" ++ action ++ ":status=press",
   "action=" ++ action ++ ":status=release"]

/-- Value a `command()` promise fulfills with. -/
inductive CommandValue where
  | errorValue (msg : String)
  | unit
deriving DecidableEq

/-- The action token `command()` would transmit for `name`
(src/index.js:289-298): the raw function stored in the current
activity's name-keyed map, escaped at send time.  `none` when
`this.state.commands` is unset or the name is absent. -/
def commandActionToken (s : LiveState) (name : String) : Option String :=
  (s.commands.bind (fun cmds => objGet cmds name)).map
    (fun f => escapeColons f.action)

/-- `command(command)` (src/index.js:287-309).  An unresolvable name
fulfills the promise with an `Error` value and sends nothing; a resolved
name sends press and release `holdAction` payloads, rejecting when a hub
send throws (`hubOk = false`). -/
def commandOp (s : LiveState) (name : String) (hubOk : Bool) :
    List String × PromiseResult CommandValue :=
  match commandActionToken s name with
  | none => ([], .fulfilled (.errorValue ("Invalid command " ++ name)))
  | some action =>
    (holdActionPayloads action,
     if hubOk then .fulfilled .unit else .rejected)

/-- `findAction(device, slug)` (src/index.js:311-330): `null` for a
missing device; exact key lookup in the slug-keyed command map first; on
a miss, a scan returning the first entry whose `name` equals the
identifier (case-sensitive string equality); `null` when neither
matches. -/
def findAction (device : Option Device) (slug : String) : Option String :=
  match device with
  | none => none
  | some dev =>
    match objGet dev.commands slug with
    | some e => some e.action
    | none =>
      match dev.commands.find? (fun p => p.2.name = slug) with
      | some p => some p.2.action
      | none => none

/-- JS string coercion of a possibly-`null` action used in
`'action=' + action`: `null` concatenates as the text `"null"`. -/
def actionText : Option String → String
  | none => "null"
  | some a => a

/-- Device resolution in `deviceCommand` (src/index.js:333): a single
lookup of the fifth topic segment in the slug-keyed `deviceSlugs` map. -/
def resolveDevice (deviceSlugs : Obj Device) (seg : String) : Option Device :=
  objGet deviceSlugs seg

/-- `deviceCommand(deviceSlug, command)` (src/index.js:332-354).  The
`if (!action)` and `if (!device)` guards build rejected promises but do
not return, so the press/release sends are issued unconditionally, with
the JS `null` action rendered as the literal text `null` in the payload
when resolution failed.  `hubOk = false` models a hub send throwing. -/
def deviceCommandOp (deviceSlugs : Obj Device) (deviceSlug command : String)
    (hubOk : Bool) : List String × PromiseResult Unit :=
  let device := resolveDevice deviceSlugs deviceSlug
  let action := findAction device command
  (holdActionPayloads (actionText action),
   if hubOk then .fulfilled () else .rejected)

/-- Outcome of the async `message` callback's promise. -/
inductive MsgOutcome where
  | resolved
  | rejected
deriving DecidableEq

/-- JS `topic.endsWith(pat)`: suffix test on the character lists. -/
def jsEndsWith (s pat : String) : Bool := pat.toList.isSuffixOf s.toList

/-- The `message` handler registered in the constructor
(src/index.js:58-75).  There is no try/catch around the body: the
awaited `command` / `startActivity` rejections propagate and reject the
callback's promise.  The device branch calls `deviceCommand` without
awaiting it and the invalid-topic branch only logs, so both leave the
callback's own promise fulfilled. -/
def handleMessage (activities : Option (Obj Activity)) (s : LiveState)
    (topic msg : String) (hubOk : Bool) : MsgOutcome :=
  if jsEndsWith topic "command" then
    match (commandOp s msg hubOk).2 with
    | .fulfilled _ => .resolved
    | .rejected => .rejected
  else if jsEndsWith topic "activity" then
    match (startActivityOp activities s msg hubOk).2.2 with
    | .fulfilled _ => .resolved
    | .rejected => .rejected
  else .resolved

/-- The `try { ... } catch (e) { console.log(...) }` wrapper that the
part_001 revision of the handler (src/unnamed/part_001:59-77) puts
around the same body: every failure is swallowed at the boundary and the
callback's promise fulfills. -/
def catchBoundary (_outcome : MsgOutcome) : MsgOutcome := .resolved

/-- The part_001 revision's message handler: the index.js body wrapped in
the boundary try/catch. -/
def handleMessageCaught (activities : Option (Obj Activity)) (s : LiveState)
    (topic msg : String) (hubOk : Bool) : MsgOutcome :=
  catchBoundary (handleMessage activities s topic msg hubOk)

/-- Device resolution as the spec words it for the device-command topic
(tried as slug, then as string key, then as numeric key against the
device map, first hit wins); stated for comparison with the source's
`resolveDevice`. -/
def resolveDeviceClaimed (devices deviceSlugs : Obj Device) (seg : String) :
    Option Device :=
  match objGet deviceSlugs seg with
  | some d => some d
  | none =>
    match objGet devices seg with
    | some d => some d
    | none =>
      match seg.toNat? with
      | some n => objGet devices (toString n)
      | none => none

/-! ### Sample data used by witnesses and counterexamples -/

def funcPowerOn : Func := ⟨"PowerOn", "Power On", "h:1:on"⟩

def funcPowerOff : Func := ⟨"PowerOff", "Power Off", "h:1:off"⟩

def act1 : Activity := ⟨"1", "Watch TV", [⟨[funcPowerOn]⟩]⟩

def act2 : Activity := ⟨"2", "Listen Music", [⟨[funcPowerOff]⟩]⟩

/-- A connected live state currently in activity `"1"`, whose activities
map knows activities `"1"` and `"2"`. -/
def sampleState : LiveState :=
  { startingActivity := none
    currentActivity := some "1"
    isOff := some false
    commands := some [("PowerOn", funcPowerOn)]
    activities := [("1", act1), ("2", act2)] }

/-- A live state whose activities map knows only activity `"1"`, so a
tick that polls a different activity has its commands recompute throw. -/
def narrowState : LiveState :=
  { startingActivity := none
    currentActivity := some "1"
    isOff := some false
    commands := some [("PowerOn", funcPowerOn)]
    activities := [("1", act1)] }

/-- A raw catalog device with id `"123"` and label `"TV"` (slug `"tv"`). -/
def tvRaw : RawDevice :=
  ⟨"123", "TV", [⟨[⟨"PowerToggle", "Power Toggle", "a:5:t"⟩]⟩]⟩

/-! ### Helper lemmas -/

theorem foldl_invariant {α β : Type} (P : β → Prop) (f : β → α → β)
    (l : List α) (init : β) (h0 : P init)
    (hstep : ∀ b a, a ∈ l → P b → P (f b a)) : P (l.foldl f init) := by
  induction l generalizing init with
  | nil => exact h0
  | cons a l ih =>
    exact ih (f init a) (hstep init a (List.mem_cons_self a l) h0)
      (fun b x hx hb => hstep b x (List.mem_cons_of_mem a hx) hb)

theorem mem_objSet {α : Type} {o : Obj α} {k : String} {v : α}
    {p : String × α} (hp : p ∈ objSet o k v) : p ∈ o ∨ p = (k, v) := by
  unfold objSet at hp
  split at hp
  · obtain ⟨q, hq, hq2⟩ := List.mem_map.mp hp
    by_cases hk : q.1 = k
    · right
      simp [hk] at hq2
      exact hq2.symm
    · left
      simp [hk] at hq2
      exact hq2 ▸ hq
  · rcases List.mem_append.mp hp with h | h
    · exact Or.inl h
    · right
      simpa using h

theorem objGet_mem {α : Type} {o : Obj α} {k : String} {v : α}
    (h : objGet o k = some v) : (k, v) ∈ o := by
  unfold objGet at h
  cases hf : o.find? (fun p => p.1 = k) with
  | none => rw [hf] at h; simp at h
  | some q =>
    rw [hf] at h
    simp at h
    have hq1 : q.1 = k := by simpa using List.find?_some hf
    have hmem := List.mem_of_find?_eq_some hf
    have : q = (k, v) := by
      cases q
      simp_all
    exact this ▸ hmem

theorem objGet_eq_none {α : Type} {o : Obj α} {k : String}
    (h : objGet o k = none) : ∀ v, (k, v) ∉ o := by
  intro v hv
  unfold objGet at h
  cases hf : o.find? (fun p => p.1 = k) with
  | none =>
    have := List.find?_eq_none.mp hf (k, v) hv
    simp at this
  | some q => rw [hf] at h; simp at h

theorem noUnescapedColon_cons_ne (c : Char) (l : List Char) (hc : ¬c = ':') :
    noUnescapedColon (c :: l) = noUnescapedColon l := by
  cases l with
  | nil => simp [noUnescapedColon, hc]
  | cons d rest => simp [noUnescapedColon, hc]

theorem noUnescapedColon_cons_colon (l : List Char) :
    noUnescapedColon (':' :: ':' :: l) = noUnescapedColon l := by
  simp [noUnescapedColon]

theorem noUnescapedColon_escapeList (l : List Char) :
    noUnescapedColon (escapeColonsList l) = true := by
  induction l with
  | nil => rfl
  | cons c rest ih =>
    by_cases hc : c = ':'
    · rw [escapeColonsList, if_pos hc, noUnescapedColon_cons_colon, ih]
    · rw [escapeColonsList, if_neg hc, noUnescapedColon_cons_ne c _ hc, ih]

theorem noUnescapedColon_escape (s : String) :
    noUnescapedColon (escapeColons s).toList = true :=
  noUnescapedColon_escapeList s.toList

/-- Invariant satisfied by every entry of a map built by
`getCommandsFromControlGroup cg`: stored under the slug of its label,
carrying that slug, the escaped image of some raw catalog function. -/
def goodCmdEntry (cg : ControlGroup) (p : String × CmdEntry) : Prop :=
  p.2.slug = p.1 ∧ parameterize p.2.label = p.1 ∧
  ∃ g, g ∈ cg ∧ ∃ f, f ∈ g.function ∧
    p.2 = ⟨f.name, parameterize f.label, f.label, escapeColons f.action⟩

theorem getCommandsFromControlGroup_entries (cg : ControlGroup) :
    ∀ p ∈ getCommandsFromControlGroup cg, goodCmdEntry cg p :=
  foldl_invariant
    (fun acc => ∀ p ∈ acc, goodCmdEntry cg p)
    (fun acc g =>
      g.function.foldl
        (fun acc2 f =>
          let slug := parameterize f.label
          objSet acc2 slug ⟨f.name, slug, f.label, escapeColons f.action⟩)
        acc)
    cg []
    (by intro p hp; simp at hp)
    (by
      intro acc g hg hacc
      refine foldl_invariant
        (fun acc2 => ∀ p ∈ acc2, goodCmdEntry cg p) _ g.function acc hacc ?_
      intro acc2 f hf hacc2 p hp
      rcases mem_objSet hp with h | h
      · exact hacc2 p h
      · subst h
        exact ⟨rfl, rfl, g, hg, f, hf, rfl⟩)

/-- Every device stored in the slug-keyed map built by `getDevices` is
keyed by its own slug and is the decoration of some raw catalog
device. -/
theorem getDevices_slug_entries (raw : List RawDevice) :
    ∀ p ∈ (getDevices raw).2,
      p.2.slug = p.1 ∧ ∃ d, d ∈ raw ∧ p.2 = buildDevice d :=
  foldl_invariant
    (fun acc : Obj Device × Obj Device =>
      ∀ p ∈ acc.2, p.2.slug = p.1 ∧ ∃ d, d ∈ raw ∧ p.2 = buildDevice d)
    (fun acc d =>
      let dd := buildDevice d
      (objSet acc.1 dd.id dd, objSet acc.2 dd.slug dd))
    raw ([], [])
    (by intro p hp; simp at hp)
    (by
      intro acc d hd hacc p hp
      rcases mem_objSet hp with h | h
      · exact hacc p h
      · subst h
        exact ⟨rfl, d, hd, rfl⟩)


/-! ### Claim theorems -/

/-- C1: on a poll tick whose hub fetches succeed, the transition flag
clears exactly on confirmed arrival — the new `startingActivity` is
`null` when the polled activity equals the recorded `startingActivity`
and is the old `startingActivity` otherwise; moreover no tick whatsoever
(including a throwing one) ever gives `startingActivity` a value other
than its old one or `null`. -/
theorem pollTick_clears_startingActivity_on_arrival
    (s : LiveState) (a : String) (b : Bool) :
    (pollTick s (some a) (some b)).startingActivity =
      (if s.startingActivity = some a then none else s.startingActivity) ∧
    ∀ cur off, (pollTick s cur off).startingActivity = s.startingActivity ∨
      (pollTick s cur off).startingActivity = none := by
  constructor
  · show (pollTick s (some a) (some b)).startingActivity = _
    unfold pollTick
    dsimp only
    split
    · split
      · rfl
      · rfl
    · rfl
  · intro cur off
    cases cur with
    | none => exact Or.inl rfl
    | some a2 =>
      cases off with
      | none => exact Or.inl rfl
      | some b2 =>
        by_cases hsa : s.startingActivity = some a2
        · right
          unfold pollTick
          dsimp only
          rw [if_pos hsa]
          split
          · split
            · rfl
            · rfl
          · rfl
        · left
          unfold pollTick
          dsimp only
          rw [if_neg hsa]
          split
          · split
            · rfl
            · rfl
          · rfl

/-- C2 counterexample: a tick in which the commands recompute throws (the
polled activity `"2"` is absent from the activities map, so
`getCommands` raises a TypeError) nevertheless leaves `currentActivity`
and `isOff` updated to the tick's polled values, contradicting the claim
that any throwing step keeps both at their prior values. -/
theorem pollTick_throwing_recompute_still_updates :
    objGet narrowState.activities "2" = none ∧
    (pollTick narrowState (some "2") (some true)).currentActivity ≠
      narrowState.currentActivity ∧
    (pollTick narrowState (some "2") (some true)).isOff ≠ narrowState.isOff := by
  decide

/-- C2 amended: a tick whose `getCurrentActivity` or `isOff` fetch throws
leaves the whole state (hence `currentActivity` and `isOff`) untouched
and the loop continues with the remaining ticks; when instead the
commands recompute throws (polled activity not in the activities map),
the loop also continues but `currentActivity` and `isOff` have already
been overwritten by the tick's polled values, only `commands` keeping
its prior value. -/
theorem pollTick_fetch_failure_preserves_state
    (s : LiveState) (a : String) (b : Bool) (off : Option Bool)
    (rest : List (Option String × Option Bool)) :
    pollTick s none off = s ∧
    pollTick s (some a) none = s ∧
    (objGet s.activities a = none →
      (pollTick s (some a) (some b)).currentActivity = some a ∧
      (pollTick s (some a) (some b)).isOff = some b ∧
      (pollTick s (some a) (some b)).commands = s.commands) ∧
    pollRun s ((none, off) :: rest) = pollRun s rest := by
  refine ⟨rfl, rfl, ?_, rfl⟩
  intro hact
  unfold pollTick
  dsimp only
  split
  · rename_i hnew
    have hget :
        getCommands
          { s with isOff := some b, currentActivity := some a,
                   startingActivity :=
                     if s.startingActivity = some a then none
                     else s.startingActivity } = none := by
      unfold getCommands
      dsimp only
      rw [hact]
    rw [hget]
    exact ⟨rfl, rfl, rfl⟩
  · exact ⟨rfl, rfl, rfl⟩

/-- C2 amended, witness: concrete failing ticks around a successful run. -/
theorem pollTick_fetch_failure_preserves_state_witness :
    (pollTick narrowState (some "9") (some true)).commands =
      narrowState.commands :=
  ((pollTick_fetch_failure_preserves_state narrowState "9" true none
    []).2.2.1 (by decide)).2.2

/-- C8: the current-activity commands map is recomputed by a tick exactly
when the polled activity differs from the recorded `currentActivity`:
on a tick polling the recorded activity the map is left untouched
(whatever `isOff` returned), and on a successful tick polling a
different activity it becomes the freshly flattened map of that
activity's control groups (left untouched only when the recompute itself
throws because the activity is unknown). -/
theorem pollTick_recomputes_commands_iff_new_activity
    (s : LiveState) (a : String) (b : Bool) :
    (s.currentActivity = some a →
      ∀ off, (pollTick s (some a) off).commands = s.commands) ∧
    (s.currentActivity ≠ some a →
      (pollTick s (some a) (some b)).commands =
        match objGet s.activities a with
        | some act => some (flattenControlGroup act.controlGroup)
        | none => s.commands) := by
  constructor
  · intro hsame off
    cases off with
    | none => rfl
    | some b2 =>
      unfold pollTick
      dsimp only
      rw [if_neg (by simp [hsame])]
  · intro hdiff
    unfold pollTick
    dsimp only
    rw [if_pos (by simp [hdiff])]
    unfold getCommands
    dsimp only
    cases hact : objGet s.activities a with
    | none => rfl
    | some act => rfl

/-- C8 witness: a tick of `sampleState` polling activity `"2"` (different
from the recorded `"1"`) recomputes the commands map from activity 2's
control groups. -/
theorem pollTick_recomputes_commands_iff_new_activity_witness :
    (pollTick sampleState (some "2") (some true)).commands =
      some [("PowerOff", funcPowerOff)] :=
  ((pollTick_recomputes_commands_iff_new_activity sampleState "2"
    true).2 (by decide)).trans (by decide)

/-- Any action `findAction` returns is the `action` field of some entry of
the device's command map. -/
theorem findAction_some_mem {dev : Device} {ident t : String}
    (h : findAction (some dev) ident = some t) :
    ∃ p, p ∈ dev.commands ∧ p.2.action = t := by
  have h2 : (match objGet dev.commands ident with
      | some e => some e.action
      | none =>
        match dev.commands.find? (fun p => p.2.name = ident) with
        | some p => some p.2.action
        | none => none) = some t := h
  cases hg : objGet dev.commands ident with
  | some e =>
    rw [hg] at h2
    simp at h2
    exact ⟨(ident, e), objGet_mem hg, h2⟩
  | none =>
    rw [hg] at h2
    cases hf : dev.commands.find? (fun p => p.2.name = ident) with
    | none => rw [hf] at h2; simp at h2
    | some p =>
      rw [hf] at h2
      simp at h2
      exact ⟨p, List.mem_of_find?_eq_some hf, h2⟩

/-- C3: every action token a hold-action send would carry has every colon
of the raw catalog action doubled exactly once and hence contains no
unescaped colon — on the activity-command path the token is the
send-time escape of the raw function stored in the current activity's
map, and on the device-command path the token is either the
catalog-time escape stored by `getCommandsFromControlGroup` or the JS
text `null` (which has no colon at all). -/
theorem hold_action_tokens_have_no_unescaped_colon
    (s : LiveState) (raw : List RawDevice) :
    (∀ name t, commandActionToken s name = some t →
      (∃ cmds f, s.commands = some cmds ∧ objGet cmds name = some f ∧
        t = escapeColons f.action) ∧
      noUnescapedColon t.toList = true) ∧
    (∀ ds cmd,
      noUnescapedColon
        (actionText
          (findAction (resolveDevice (getDevices raw).2 ds) cmd)).toList =
        true ∧
      ∀ t, findAction (resolveDevice (getDevices raw).2 ds) cmd = some t →
        ∃ rawAction, t = escapeColons rawAction) := by
  constructor
  · intro name t ht
    unfold commandActionToken at ht
    cases hc : s.commands with
    | none => rw [hc] at ht; simp at ht
    | some cmds =>
      rw [hc] at ht
      have ht2 : Option.map (fun f => escapeColons f.action)
          (objGet cmds name) = some t := ht
      cases hf : objGet cmds name with
      | none => rw [hf] at ht2; simp at ht2
      | some f =>
        rw [hf] at ht2
        simp at ht2
        exact ⟨⟨cmds, f, rfl, hf, ht2.symm⟩, ht2 ▸ noUnescapedColon_escape _⟩
  · intro ds cmd
    have key : ∀ t, findAction (resolveDevice (getDevices raw).2 ds) cmd =
        some t → ∃ rawAction, t = escapeColons rawAction := by
      intro t ht
      cases hdev : resolveDevice (getDevices raw).2 ds with
      | none => rw [hdev] at ht; simp [findAction] at ht
      | some dev =>
        rw [hdev] at ht
        obtain ⟨p, hp, hact⟩ := findAction_some_mem ht
        obtain ⟨_, ⟨d, _, hd⟩⟩ :=
          getDevices_slug_entries raw (ds, dev) (objGet_mem hdev)
        dsimp only at hd
        have hcmds : dev.commands =
            getCommandsFromControlGroup d.controlGroup := by rw [hd]; rfl
        obtain ⟨_, _, g, _, f, _, hf⟩ :=
          getCommandsFromControlGroup_entries d.controlGroup p (hcmds ▸ hp)
        refine ⟨f.action, ?_⟩
        rw [← hact, hf]
    refine ⟨?_, key⟩
    cases hfa : findAction (resolveDevice (getDevices raw).2 ds) cmd with
    | none => decide
    | some t =>
      obtain ⟨rawAction, hra⟩ := key t hfa
      simpa [actionText, hra] using noUnescapedColon_escape rawAction

/-- C3 witness: the token the activity-command path would send for
`"PowerOn"` in `sampleState` is the once-escaped raw action and passes
the no-unescaped-colon check; the device path for the catalog `[tvRaw]`
does so for the slug-resolved `power-toggle` command. -/
theorem hold_action_tokens_have_no_unescaped_colon_witness :
    noUnescapedColon ("h::1::on".toList) = true ∧
    noUnescapedColon
      (actionText
        (findAction (resolveDevice (getDevices [tvRaw]).2 "tv")
          "power-toggle")).toList = true := by
  constructor
  · exact ((hold_action_tokens_have_no_unescaped_colon sampleState
      [tvRaw]).1 "PowerOn" "h::1::on" (by decide)).2
  · exact ((hold_action_tokens_have_no_unescaped_colon sampleState
      [tvRaw]).2 "tv" "power-toggle").1

/-- C4: evaluation at the failing input.  For the device-scoped request
`deviceCommand("tv", "nope")` — device `tv` exists, command `nope`
resolves to nothing — the `if (!action)` guard only builds a rejected
promise without returning, so the code still issues the two hold-action
sends, carrying the JS text `null` as action; the claim (and spec) says
such a request is dropped with zero hub sends.  The activity-command
path does drop the request: `command("nope")` issues no sends. -/
theorem deviceCommand_unresolved_still_sends :
    findAction (resolveDevice (getDevices [tvRaw]).2 "tv") "nope" = none ∧
    (deviceCommandOp (getDevices [tvRaw]).2 "tv" "nope" true).1 =
      ["action=null:status=press", "action=null:status=release"] ∧
    (commandOp sampleState "nope" true).1 = [] := by
  decide

/-- C5 counterexample: for the one-device catalog `[tvRaw]` (id `"123"`,
slug `"tv"`), the identifier `"123"` is a string key of the device map,
so the claimed slug/string-key/numeric-key fallback resolves it; the
code's `deviceCommand` looks the fifth topic segment up only in the
slug-keyed map and resolves nothing. -/
theorem deviceCommand_resolution_no_key_fallback :
    resolveDevice (getDevices [tvRaw]).2 "123" = none ∧
    resolveDeviceClaimed (getDevices [tvRaw]).1 (getDevices [tvRaw]).2 "123" =
      some (buildDevice tvRaw) := by
  decide

/-- C5 amended: the fifth path segment of a device-command topic is
resolved by a single lookup, as a slug against the slug-keyed device
map built by `getDevices`; any device it resolves is the one keyed by
exactly that slug, and no string-key or numeric-key fallback against
the id-keyed device map is tried. -/
theorem deviceCommand_resolution_slug_only (raw : List RawDevice)
    (seg : String) :
    resolveDevice (getDevices raw).2 seg = objGet (getDevices raw).2 seg ∧
    ∀ d, resolveDevice (getDevices raw).2 seg = some d → d.slug = seg := by
  refine ⟨rfl, ?_⟩
  intro d hd
  have := getDevices_slug_entries raw (seg, d) (objGet_mem hd)
  exact this.1

/-- C5 amended, witness: the slug `"tv"` resolves to the decorated TV
device, whose slug is exactly the looked-up segment. -/
theorem deviceCommand_resolution_slug_only_witness :
    (buildDevice tvRaw).slug = "tv" :=
  (deviceCommand_resolution_slug_only [tvRaw] "tv").2 (buildDevice tvRaw)
    (by decide)

/-- Definitional unfolding of `findActivity` on a present activities map. -/
theorem findActivity_some_def (acts : Obj Activity) (payload : String) :
    findActivity (some acts) payload =
      if (objGet acts payload).isSome then some payload
      else
        match acts.find? (fun p => p.2.label = payload) with
        | some p => some p.1
        | none => none := rfl

/-- Definitional unfolding of `findAction` on a present device. -/
theorem findAction_some_def (dev : Device) (ident : String) :
    findAction (some dev) ident =
      match objGet dev.commands ident with
      | some e => some e.action
      | none =>
        match dev.commands.find? (fun p => p.2.name = ident) with
        | some p => some p.2.action
        | none => none := rfl

/-- C6: an activity-start request whose payload is neither a key of the
activities map nor the exact label of any known activity resolves to
nothing, and `startActivity` is then a no-op — the state (in particular
`startingActivity`) is returned unchanged, no start-activity RPC is
issued, and the promise fulfills. -/
theorem startActivity_unknown_payload_noop
    (acts : Obj Activity) (s : LiveState) (payload : String) (rpcOk : Bool)
    (hid : objGet acts payload = none)
    (hlabel : ∀ p ∈ acts, p.2.label ≠ payload) :
    findActivity (some acts) payload = none ∧
    startActivityOp (some acts) s payload rpcOk = (s, [], .fulfilled ()) := by
  have hfind : acts.find? (fun p => p.2.label = payload) = none := by
    rw [List.find?_eq_none]
    intro p hp
    simpa using hlabel p hp
  have hfa : findActivity (some acts) payload = none := by
    rw [findActivity_some_def, hid, hfind]
    rfl
  refine ⟨hfa, ?_⟩
  unfold startActivityOp
  rw [hfa]

/-- C6 witness: payload `"Nope"` matches no id and no label of the
one-activity map, so the request is a no-op on `sampleState`. -/
theorem startActivity_unknown_payload_noop_witness :
    startActivityOp (some [("1", act1)]) sampleState "Nope" true =
      (sampleState, [], .fulfilled ()) :=
  (startActivity_unknown_payload_noop [("1", act1)] sampleState "Nope" true
    (by decide) (by decide)).2

/-- C7: for a device whose command map was built from its control groups,
resolving the slug derived from a stored command's label hits the exact
slug match first and returns that command's action; and `findAction`
returns `null` only when the identifier is neither a slug key of the map
nor the `name` of any stored command (case-sensitive). -/
theorem findAction_slug_roundtrip
    (cg : ControlGroup) (dev : Device) (k : String) (C : CmdEntry)
    (hdev : dev.commands = getCommandsFromControlGroup cg)
    (hC : objGet dev.commands k = some C) :
    findAction (some dev) (parameterize C.label) = some C.action ∧
    ∀ ident, findAction (some dev) ident = none →
      objGet dev.commands ident = none ∧
      ∀ p ∈ dev.commands, p.2.name ≠ ident := by
  have hmem := objGet_mem hC
  have hgood := getCommandsFromControlGroup_entries cg (k, C) (hdev ▸ hmem)
  have hkey : parameterize C.label = k := hgood.2.1
  constructor
  · rw [findAction_some_def, hkey, hC]
  · intro ident hnone
    rw [findAction_some_def] at hnone
    constructor
    · cases hg : objGet dev.commands ident with
      | none => rfl
      | some e => rw [hg] at hnone; simp at hnone
    · intro p hp hpname
      cases hg : objGet dev.commands ident with
      | some e => rw [hg] at hnone; simp at hnone
      | none =>
        rw [hg] at hnone
        cases hf : dev.commands.find? (fun q => q.2.name = ident) with
        | some q => rw [hf] at hnone; simp at hnone
        | none =>
          have := List.find?_eq_none.mp hf p hp
          simp at this
          exact this hpname

/-- C7 witness: in the TV device built from `tvRaw`'s catalog, the slug
of the stored `Power Toggle` command resolves back to its (escaped)
action. -/
theorem findAction_slug_roundtrip_witness :
    findAction (some (buildDevice tvRaw))
      (parameterize "Power Toggle") = some "a::5::t" :=
  (findAction_slug_roundtrip tvRaw.controlGroup (buildDevice tvRaw)
    "power-toggle" ⟨"PowerToggle", "power-toggle", "Power Toggle", "a::5::t"⟩
    rfl (by decide)).1

/-- C9 counterexample: a hub-send failure during command dispatch is not
caught in the src/index.js message handler — for the topic
`harmony/hub/set/command` with the resolvable payload `"PowerOn"` and a
failing hub send, the handler's own promise rejects instead of
resolving, so the failure escapes the message-handling boundary. -/
theorem message_handler_rejection_escapes :
    handleMessage (some [("1", act1)]) sampleState "harmony/hub/set/command"
      "PowerOn" false = .rejected := by
  decide

/-- C9 amended: only the part_001 revision catches failures at the
message-handling boundary (its handler always resolves); the
src/index.js handler has no such try/catch, and its promise rejects
exactly when a hub call fails while an awaited dispatch was resolvable —
a command-topic payload present in the current activity's command map,
or an activity-topic payload resolving to a (truthy) activity. -/
theorem message_handler_rejects_iff
    (acts : Option (Obj Activity)) (s : LiveState) (topic msg : String)
    (hubOk : Bool) :
    handleMessageCaught acts s topic msg hubOk = .resolved ∧
    (handleMessage acts s topic msg hubOk = .rejected ↔
      hubOk = false ∧
      ((jsEndsWith topic "command" = true ∧
        (commandActionToken s msg).isSome = true) ∨
       (jsEndsWith topic "command" = false ∧ jsEndsWith topic "activity" = true ∧
        ∃ a, findActivity acts msg = some a ∧ a ≠ ""))) := by
  refine ⟨rfl, ?_⟩
  unfold handleMessage
  by_cases hcmd : jsEndsWith topic "command" = true
  · rw [if_pos hcmd]
    cases ht : commandActionToken s msg with
    | none => simp [commandOp, ht, hcmd]
    | some action =>
      cases hubOk with
      | true => simp [commandOp, ht, hcmd]
      | false => simp [commandOp, ht, hcmd]
  · rw [if_neg hcmd]
    by_cases hact : jsEndsWith topic "activity" = true
    · rw [if_pos hact]
      unfold startActivityOp
      cases hfa : findActivity acts msg with
      | none => simp [hfa, hcmd, hact]
      | some a =>
        by_cases ha : a = ""
        · subst ha
          simp [hfa, hcmd, hact]
        · cases hubOk with
          | true => simp [hfa, hcmd, hact, ha]
          | false => simp [hfa, hcmd, hact, ha]
    · rw [if_neg hact]
      simp [hcmd, hact]

/-- C10: a command name that does not resolve against the current
activity's command map (`commands ? commands[command] : null` is null)
makes `command()` return a promise that fulfills — never rejects — and
whose fulfillment value is the `Error` object `Invalid command <name>`;
no hub send is issued. -/
theorem command_unresolved_fulfills_with_error_value
    (s : LiveState) (name : String)
    (h : s.commands.bind (fun cmds => objGet cmds name) = none) :
    ∀ hubOk, commandOp s name hubOk =
      ([], .fulfilled (.errorValue ("Invalid command " ++ name))) := by
  intro hubOk
  have ht : commandActionToken s name = none := by
    unfold commandActionToken
    rw [h]
    rfl
  unfold commandOp
  rw [ht]

/-- C10 witness: `command("nope")` in `sampleState` fulfills with the
`Invalid command nope` error value and sends nothing, whether or not
the hub would accept sends. -/
theorem command_unresolved_fulfills_with_error_value_witness :
    commandOp sampleState "nope" false =
      ([], .fulfilled (.errorValue ("Invalid command " ++ "nope"))) :=
  command_unresolved_fulfills_with_error_value sampleState "nope"
    (by decide) false

/-- C1 witness: with `startingActivity = "1"` recorded, a successful tick
polling activity `"1"` clears the transition flag. -/
theorem pollTick_clears_startingActivity_on_arrival_witness :
    (pollTick { sampleState with startingActivity := some "1" } (some "1")
      (some false)).startingActivity = none :=
  ((pollTick_clears_startingActivity_on_arrival
    { sampleState with startingActivity := some "1" } "1" false).1).trans
    (by decide)

/-- C9 amended, witness: the part_001 handler resolves even on the
failing-command input that rejects the src/index.js handler. -/
theorem message_handler_rejects_iff_witness :
    handleMessageCaught (some [("1", act1)]) sampleState
      "harmony/hub/set/command" "PowerOn" false = .resolved :=
  (message_handler_rejects_iff (some [("1", act1)]) sampleState
    "harmony/hub/set/command" "PowerOn" false).1
